import Mathlib

/-!
Shallow embedding of the duration-to-scene-plan compiler of
`create-prompt-tool` (source: the service module holding
`parseDurationToSeconds`, `getAiClient` and `generatePromptFromRequest`).

The numbers of the duration parser are JavaScript numbers, IEEE-754
binary64 doubles, and are modelled as such: `JsNum` carries a finite value
as an exact integer significand and binary exponent, or `Infinity` of
either sign, or `NaN`, and every arithmetic step (`parseFloat`'s reading
of a decimal numeral, the `value * 60` of a minute token, each `+=` of the
accumulation loop) rounds its exact result to the nearest double with ties
to even, overflowing to `Infinity` at `2 ^ 1024` exactly as the hardware
does.  The model keeps the full 53-bit precision below the normal range
instead of the gradual loss of subnormals (only values under `2 ^ (-1022)`
differ, which none of the claims' inputs reach), and the `Infinity`
literal of `parseFloat` stays unreachable because the input is lowercased
first (JavaScript only recognises the exact spelling `Infinity`).  Regex
matches keep the captured text (as `match[1]` does in the source) and are
turned into numbers where the source calls `parseFloat` on the capture.
JSON number values are kept as exact rationals: no check of the response
validator reads them.
-/

namespace VideoPrompt

/-- The whitespace class of JavaScript (`\s`, `String.prototype.trim`):
ASCII blanks, NBSP, the Unicode space separators, line separators and BOM. -/
def isJsWhitespace (c : Char) : Bool :=
  (9 ≤ c.val && c.val ≤ 13) || c = ' ' || c.val = 0xA0 || c.val = 0x1680 ||
  (0x2000 ≤ c.val && c.val ≤ 0x200A) || c.val = 0x2028 || c.val = 0x2029 ||
  c.val = 0x202F || c.val = 0x205F || c.val = 0x3000 || c.val = 0xFEFF

/-- `String.prototype.trim`: drop leading and trailing whitespace. -/
def jsTrim (cs : List Char) : List Char :=
  ((cs.dropWhile isJsWhitespace).reverse.dropWhile isJsWhitespace).reverse

/-- `String.prototype.toLowerCase`, restricted to the ASCII and Latin-1
letters (all inputs the program's unit tokens can meet; other characters are
left unchanged, as JavaScript leaves every character without a lowercase
mapping). -/
def jsToLower (c : Char) : Char :=
  if 'A' ≤ c && c ≤ 'Z' then Char.ofNat (c.toNat + 32)
  else if 0xC0 ≤ c.val && c.val ≤ 0xDE && c.val ≠ 0xD7 then Char.ofNat (c.toNat + 32)
  else c

/-- `str.replace(',', '.')` with a string pattern: JavaScript replaces only
the FIRST occurrence of the comma. -/
def replaceFirstComma : List Char → List Char
  | [] => []
  | c :: t => if c = ',' then '.' :: t else c :: replaceFirstComma t

/-- Line 46 of the source:
`durationStr.trim().toLowerCase().replace(',', '.')`. -/
def normalizeDuration (s : String) : List Char :=
  replaceFirstComma ((jsTrim s.toList).map jsToLower)

/-- ASCII digit, the JavaScript regex class `\d`. -/
def isAsciiDigit (c : Char) : Bool :=
  '0' ≤ c && c ≤ '9'

/-- Split off the maximal leading run of ASCII digits. -/
def takeDigits : List Char → List Char × List Char
  | [] => ([], [])
  | c :: t =>
    if isAsciiDigit c then
      let (d, r) := takeDigits t
      (c :: d, r)
    else ([], c :: t)

/-- Value of a digit run read in base 10. -/
def digitsToNat : List Char → Nat :=
  List.foldl (fun acc c => 10 * acc + (c.toNat - '0'.toNat)) 0

/-- Exact value of the decimal numeral `<intDigits>.<fracDigits>`.  Used by
the JSON model, whose number values no validator check reads; the duration
parser instead rounds every numeral to a double (`JsNum`, below). -/
def decimalValue (intDigits fracDigits : List Char) : ℚ :=
  (digitsToNat intDigits : ℚ) + (digitsToNat fracDigits : ℚ) / 10 ^ fracDigits.length

/-! ## IEEE-754 binary64 ("double") arithmetic

JavaScript numbers.  A finite double is written `m * 2 ^ e` with an integer
significand `m` (at most 53 bits) and an exponent; the representation below
is kept canonical — `e ≤ 0`, and `m` odd unless `e = 0` — so that integer
values appear as `.fin n 0`.  All operations on naturals are by shifts and
exact division, so every function here evaluates inside the kernel. -/

/-- `2 ^ k` as a shift (shifts evaluate fast at any size). -/
def pow2 (k : Nat) : Nat := 1 <<< k

/-- Bit length, lowest chunk: halve at most `fuel` times. -/
def bitLenA : Nat → Nat → Nat
  | 0, _ => 0
  | _ + 1, 0 => 0
  | fuel + 1, n => bitLenA fuel (n / 2) + 1

/-- Bit length in chunks of 64 bits (for numbers up to `2 ^ 4096`). -/
def bitLenB : Nat → Nat → Nat
  | 0, _ => 0
  | fuel + 1, n => if n >>> 64 = 0 then bitLenA 64 n else bitLenB fuel (n >>> 64) + 64

/-- Bit length in chunks of 4096 bits. -/
def bitLenC : Nat → Nat → Nat
  | 0, _ => 0
  | fuel + 1, n => if n >>> 4096 = 0 then bitLenB 64 n else bitLenC fuel (n >>> 4096) + 4096

/-- The bit length of `n`: the least `L` with `n < 2 ^ L`.  The chunking
keeps the recursion depth small for the huge integers of overflowing
inputs; `n` itself is always enough fuel. -/
def bitLen (n : Nat) : Nat :=
  bitLenC n n

/-- A JavaScript number: a finite double `m * 2 ^ e`, an infinity, or
`NaN`. -/
inductive JsNum where
  | fin (m : Int) (e : Int)
  | inf (neg : Bool)
  | nan
  deriving DecidableEq

/-- The exact rational value of the finite double `m * 2 ^ e`. -/
def dblVal (m e : Int) : ℚ :=
  (m : ℚ) * 2 ^ e

/-- Canonicalise a finite representation: while the exponent is negative
and the significand even, shift the factor of two out of the significand. -/
def canonAux : Nat → Int → Int → JsNum
  | 0, m, e => .fin m e
  | fuel + 1, m, e =>
    if e < 0 ∧ m % 2 = 0 then canonAux fuel (m / 2) (e + 1) else .fin m e

/-- The canonical `JsNum` of value `m * 2 ^ e`: zero is `.fin 0 0`, a
nonnegative exponent is multiplied into the significand, a negative one is
reduced as far as the significand allows. -/
def canonFin (m e : Int) : JsNum :=
  if m = 0 then .fin 0 0
  else if 0 ≤ e then .fin (m * (pow2 e.toNat : Int)) 0
  else canonAux (-e).toNat m e

/-- `⌊log₂ (a / b)⌋` for positive naturals, exactly: the bit lengths give
the estimate up to one, and one comparison settles it. -/
def flog2 (a b : Nat) : Int :=
  let t : Int := (bitLen a : Int) - (bitLen b : Int)
  if 0 ≤ t then (if b * pow2 t.toNat ≤ a then t else t - 1)
  else (if b ≤ a * pow2 (-t).toNat then t else t - 1)

/-- Round the positive rational `a / b` to the nearest double (round to
nearest, ties to even), with unbounded exponent below and overflow to
`Infinity` at `2 ^ 1024`: the exponent is chosen so the pre-rounding
significand has exactly 53 bits, the remainder decides the direction, a
carry to 54 bits is exact, and a rounded value `≥ 2 ^ 1024` (normalised
exponent above 971) is the overflow IEEE sends to `Infinity`. -/
def roundPosRat (a b : Nat) : JsNum :=
  let f := flog2 a b
  let e := f - 52
  let num : Nat := if 0 ≤ e then a else a * pow2 (-e).toNat
  let den : Nat := if 0 ≤ e then b * pow2 e.toNat else b
  let n0 := num / den
  let r := num % den
  let n : Nat :=
    if 2 * r < den then n0
    else if den < 2 * r then n0 + 1
    else if n0 % 2 = 0 then n0 else n0 + 1
  let n2 : Nat := if n = pow2 53 then pow2 52 else n
  let e2 : Int := if n = pow2 53 then e + 1 else e
  if 971 < e2 then .inf false
  else canonFin (n2 : Int) e2

/-- Negation of a double (always exact). -/
def JsNum.neg : JsNum → JsNum
  | .fin m e => .fin (-m) e
  | .inf s => .inf (!s)
  | .nan => .nan

/-- Round the rational `a / b` (`b ≥ 1`) to the nearest double; rounding
commutes with the sign. -/
def roundRatToDbl (a : Int) (b : Nat) : JsNum :=
  if a = 0 then .fin 0 0
  else if 0 < a then roundPosRat a.toNat b
  else (roundPosRat (-a).toNat b).neg

/-- IEEE double addition (JavaScript `+`): the exact sum, rounded.  An
infinity absorbs finite addends; opposite infinities give `NaN`. -/
def jsAdd : JsNum → JsNum → JsNum
  | .nan, _ => .nan
  | _, .nan => .nan
  | .inf s1, .inf s2 => if s1 = s2 then .inf s1 else .nan
  | .inf s, .fin _ _ => .inf s
  | .fin _ _, .inf s => .inf s
  | .fin m1 e1, .fin m2 e2 =>
    let e := min e1 e2
    let bigM := m1 * (pow2 (e1 - e).toNat : Int) + m2 * (pow2 (e2 - e).toNat : Int)
    if 0 ≤ e then roundRatToDbl (bigM * (pow2 e.toNat : Int)) 1
    else roundRatToDbl bigM (pow2 (-e).toNat)

/-- IEEE double multiplication by an exactly representable integer (the
`value * 60` of the loop): the exact product, rounded. -/
def jsMulInt (x : JsNum) (k : Int) : JsNum :=
  match x with
  | .nan => .nan
  | .inf s => if 0 < k then .inf s else if k < 0 then .inf (!s) else .nan
  | .fin m e =>
    if 0 ≤ e then roundRatToDbl (m * k * (pow2 e.toNat : Int)) 1
    else roundRatToDbl (m * k) (pow2 (-e).toNat)

/-- JavaScript `isNaN`. -/
def JsNum.isNaN : JsNum → Bool
  | .nan => true
  | _ => false

/-- JavaScript `x <= 0` (false on `NaN`, true on `-Infinity`). -/
def JsNum.le0 : JsNum → Bool
  | .fin m _ => m ≤ 0
  | .inf neg => neg
  | .nan => false

/-- JavaScript `isFinite`. -/
def JsNum.isFiniteB : JsNum → Bool
  | .fin _ _ => true
  | _ => false

/-- The unit alternation of the regex on line 52, in source order:
`m|min|minute|minutes|phút|s|sec|second|seconds|giây`.  JavaScript
alternation takes the FIRST alternative that matches at the current
position (not the longest), so e.g. in "30 minutes" the captured unit is
"m". -/
def unitAlternatives : List String :=
  ["m", "min", "minute", "minutes", "phút", "s", "sec", "second", "seconds", "giây"]

/-- One match of `(\d+(\.\d+)?)\s*(unit)`: the text of the numeric capture
`match[1]` (integer and fractional digit runs) and the captured unit
alternative `match[3]`. -/
structure DurMatch where
  intDigits : List Char
  fracDigits : List Char
  unit : String
  deriving DecidableEq

/-- `parseFloat(match[1])` of the loop body (line 56): the capture is a
plain decimal numeral `<intDigits>.<fracDigits>`, whose exact value is
rounded to the nearest double. -/
def DurMatch.value (m : DurMatch) : JsNum :=
  roundRatToDbl (digitsToNat (m.intDigits ++ m.fracDigits) : Int) (10 ^ m.fracDigits.length)

/-- Attempt of the regex `(\d+(\.\d+)?)\s*(m|min|minute|minutes|phút|s|sec|second|seconds|giây)`
at the head of `cs`; on success, the match and the remaining characters.
Greedy matching without backtracking is exact for this pattern: giving back
characters from `\d+`, `(\.\d+)?` or `\s*` leaves a digit, a dot or a blank
where a unit letter is required, so no backtracked attempt can succeed. -/
def matchAt (cs : List Char) : Option (DurMatch × List Char) :=
  let (intDigits, r1) := takeDigits cs
  if intDigits.isEmpty then none
  else
    let (fracDigits, r2) :=
      match r1 with
      | '.' :: t =>
        let (f, r) := takeDigits t
        if f.isEmpty then (([] : List Char), r1) else (f, r)
      | _ => (([] : List Char), r1)
    let r3 := r2.dropWhile isJsWhitespace
    match unitAlternatives.find? (fun u => u.toList.isPrefixOf r3) with
    | some u => some (⟨intDigits, fracDigits, u⟩, r3.drop u.toList.length)
    | none => none

/-- The scan of `matchAll` with the global flag: find the leftmost match, then
continue right after it; on a failed attempt advance one character.  The fuel
only bounds the recursion; every step consumes at least one character, so
`fuel = cs.length` never runs out. -/
def scanAux : Nat → List Char → List DurMatch
  | 0, _ => []
  | _ + 1, [] => []
  | fuel + 1, c :: t =>
    match matchAt (c :: t) with
    | some (m, rest) => m :: scanAux fuel rest
    | none => scanAux fuel t

/-- All matches of the unit regex over `cs`, in positional order. -/
def scanMatches (cs : List Char) : List DurMatch :=
  scanAux cs.length cs

/-- The minute-unit membership test on line 59 of the source:
`['m', 'min', 'minute', 'minutes', 'phút'].includes(unit)`. -/
def minuteUnits : List String :=
  ["m", "min", "minute", "minutes", "phút"]

/-- Loop body of lines 54-64: a minute match adds `value * 60` seconds
(the double product), any other match adds `value` seconds. -/
def contribution (m : DurMatch) : JsNum :=
  if minuteUnits.contains m.unit then jsMulInt m.value 60 else m.value

/-- The number prefix `parseFloat` reads: an optional sign and the digit runs
and exponent of the longest prefix `digits [. digits] [e sign digits]`
(digits required in the integer or the fractional part; an `e` not followed
by digits is not part of the number, so `parseFloat("3e") = 3`). -/
structure FloatRep where
  negative : Bool
  intDigits : List Char
  fracDigits : List Char
  exponent : Int
  deriving DecidableEq

/-- The double `parseFloat` returns for the prefix it read: the exact value
`± <intDigits>.<fracDigits> * 10 ^ exponent`, rounded to the nearest double
— so a huge exponent overflows to `Infinity`, exactly as in JavaScript
(`parseFloat("1e999")` is `Infinity`). -/
def FloatRep.toJsNum (r : FloatRep) : JsNum :=
  let digits : Nat := digitsToNat (r.intDigits ++ r.fracDigits)
  let ePow : Int := r.exponent - r.fracDigits.length
  let num : Nat := if 0 ≤ ePow then digits * 10 ^ ePow.toNat else digits
  let den : Nat := if 0 ≤ ePow then 1 else 10 ^ (-ePow).toNat
  if r.negative then (roundRatToDbl (num : Int) den).neg
  else roundRatToDbl (num : Int) den

/-- The exponent part of a `parseFloat` literal, after the `e`/`E`. -/
def floatExponent (t : List Char) : Int :=
  match t with
  | '-' :: u => if (takeDigits u).1.isEmpty then 0 else -(digitsToNat (takeDigits u).1 : Int)
  | '+' :: u => if (takeDigits u).1.isEmpty then 0 else (digitsToNat (takeDigits u).1 : Int)
  | u => if (takeDigits u).1.isEmpty then 0 else (digitsToNat (takeDigits u).1 : Int)

/-- The fractional part of a `parseFloat` literal: a dot takes the digit
run after it, anything else contributes nothing. -/
def fracPart (r1 : List Char) : List Char × List Char :=
  match r1 with
  | '.' :: t => takeDigits t
  | _ => ([], r1)

/-- The exponent of a `parseFloat` literal: only an `e`/`E` opens one. -/
def floatExpPart (r2 : List Char) : Int :=
  match r2 with
  | 'e' :: t => floatExponent t
  | 'E' :: t => floatExponent t
  | _ => 0

/-- The digit part of a `parseFloat` literal, after whitespace and sign:
the longest prefix `digits [. digits] [e sign digits]`, with at least one
digit in the integer or the fractional part. -/
def floatDigitsRep (neg : Bool) (cs2 : List Char) : Option FloatRep :=
  let intDigits := (takeDigits cs2).1
  let r1 := (takeDigits cs2).2
  let fracDigits := (fracPart r1).1
  let r2 := (fracPart r1).2
  if intDigits.isEmpty && fracDigits.isEmpty then none
  else some ⟨neg, intDigits, fracDigits, floatExpPart r2⟩

/-- The syntactic part of JavaScript `parseFloat` on the cleaned string: skip
leading whitespace, an optional sign, then the longest number prefix; `none`
means no number could be read (`parseFloat` returns `NaN`).  The `Infinity`
literal is spelled with a capital I and the input was lowercased, so it
cannot occur. -/
def jsParseFloatRep (cs : List Char) : Option FloatRep :=
  match cs.dropWhile isJsWhitespace with
  | '-' :: t => floatDigitsRep true t
  | '+' :: t => floatDigitsRep false t
  | cs1 => floatDigitsRep false cs1

/-- `parseFloat` of JavaScript on the cleaned string: the rounded double of
the number prefix, `NaN` when there is none. -/
def jsParseFloat (cs : List Char) : JsNum :=
  match jsParseFloatRep cs with
  | some r => r.toJsNum
  | none => .nan

/-- The error taxonomy: in the source every failure is an `Error` carrying
only a message; the constructor records which `throw` site produced it, and
`message` is what the source's `error.message` holds. -/
inductive CoreError where
  | invalidDuration (msg : String)
  | missingApiKey (msg : String)
  | gatewayFailure (msg : String)
  | malformedResponse (msg : String)
  | unexpectedShape (msg : String)
  | missingSceneKeys (msg : String)
  deriving DecidableEq

def CoreError.message : CoreError → String
  | .invalidDuration m => m
  | .missingApiKey m => m
  | .gatewayFailure m => m
  | .malformedResponse m => m
  | .unexpectedShape m => m
  | .missingSceneKeys m => m

/-- The message of the `throw` on line 75 of the source. -/
def invalidDurationMsg : String :=
  "Invalid duration format. Please use formats like '30s', '1 minute', '2m 15s', '1 phút'."

deriving instance DecidableEq for Except

/-- Lines 45-79 of the source, `parseDurationToSeconds`: normalize, scan all
number-unit tokens and accumulate their contributions left to right with
double addition (`totalSeconds += …`, starting from `0`); with no token,
fall back to `parseFloat` of the whole cleaned string, adopted only when
the result is neither `NaN` nor infinite (lines 67-72, the
`!isNaN(plainNumber) && isFinite(plainNumber)` guard); finally reject a
`NaN` or non-positive total (line 74) — a total of `Infinity`, which an
overflowing token produces, passes this last guard and is returned. -/
def parseDurationToSeconds (durationStr : String) : Except CoreError JsNum :=
  let cleanStr := normalizeDuration durationStr
  let ms := scanMatches cleanStr
  let totalSeconds : JsNum :=
    if ms.isEmpty then
      let plainNumber := jsParseFloat cleanStr
      if !plainNumber.isNaN && plainNumber.isFiniteB then plainNumber
      else .fin 0 0
    else (ms.map contribution).foldl jsAdd (.fin 0 0)
  if totalSeconds.isNaN || totalSeconds.le0 then
    .error (.invalidDuration invalidDurationMsg)
  else .ok totalSeconds

/-! ## JSON values and `JSON.parse`

The validator in `generatePromptFromRequest` (lines 139-152) runs
`JSON.parse` on the trimmed response text and inspects the result.  `Json`
is the value domain of `JSON.parse`; object member lists keep document
order, a duplicated key keeps its first position and its last value, as in
JavaScript. -/

inductive Json where
  | null
  | bool (b : Bool)
  | num (q : ℚ)
  | str (s : String)
  | arr (elems : List Json)
  | obj (members : List (String × Json))

/-- JSON whitespace (RFC 8259): space, tab, line feed, carriage return. -/
def isJsonWs (c : Char) : Bool :=
  c = ' ' || c = '\t' || c = '\n' || c = '\r'

/-- Value of one hex digit, if `c` is one. -/
def hexDigitVal (c : Char) : Option Nat :=
  if isAsciiDigit c then some (c.toNat - 48)
  else if 'a' ≤ c && c ≤ 'f' then some (c.toNat - 87)
  else if 'A' ≤ c && c ≤ 'F' then some (c.toNat - 55)
  else none

/-- Value of a `\uXXXX` escape's four hex digits. -/
def hex4 (a b c d : Char) : Option Nat :=
  match hexDigitVal a, hexDigitVal b, hexDigitVal c, hexDigitVal d with
  | some x, some y, some z, some w => some (((x * 16 + y) * 16 + z) * 16 + w)
  | _, _, _, _ => none

/-- The character a `\uXXXX` escape with value `h1` denotes, together with
the input after it: a high surrogate followed by a matching `\uXXXX` low
surrogate combines into one scalar; otherwise the single value stands alone
(an unpaired surrogate, legal in a JavaScript string but not a Unicode
scalar, maps to `Char.ofNat`'s default; no claim exercises it). -/
def unescapeU (h1 : Nat) (t : List Char) : Char × List Char :=
  if 0xD800 ≤ h1 && h1 ≤ 0xDBFF then
    match t with
    | '\\' :: 'u' :: a2 :: b2 :: c2 :: d2 :: t2 =>
      match hex4 a2 b2 c2 d2 with
      | some h2 =>
        if 0xDC00 ≤ h2 && h2 ≤ 0xDFFF then
          (Char.ofNat (0x10000 + (h1 - 0xD800) * 0x400 + (h2 - 0xDC00)), t2)
        else (Char.ofNat h1, t)
      | none => (Char.ofNat h1, t)
    | _ => (Char.ofNat h1, t)
  else (Char.ofNat h1, t)

/-- Body of a JSON string, after the opening quote: literal characters
(unescaped control characters are refused), the short escapes, and `\uXXXX`
via `unescapeU`.  Every step consumes at least one character, so fuel equal
to the length never runs out. -/
def parseJsonStringAux : Nat → List Char → List Char → Option (String × List Char)
  | 0, _, _ => none
  | _ + 1, acc, '"' :: t => some (String.mk acc.reverse, t)
  | fuel + 1, acc, '\\' :: '"' :: t => parseJsonStringAux fuel ('"' :: acc) t
  | fuel + 1, acc, '\\' :: '\\' :: t => parseJsonStringAux fuel ('\\' :: acc) t
  | fuel + 1, acc, '\\' :: '/' :: t => parseJsonStringAux fuel ('/' :: acc) t
  | fuel + 1, acc, '\\' :: 'b' :: t => parseJsonStringAux fuel (Char.ofNat 8 :: acc) t
  | fuel + 1, acc, '\\' :: 'f' :: t => parseJsonStringAux fuel (Char.ofNat 12 :: acc) t
  | fuel + 1, acc, '\\' :: 'n' :: t => parseJsonStringAux fuel ('\n' :: acc) t
  | fuel + 1, acc, '\\' :: 'r' :: t => parseJsonStringAux fuel ('\r' :: acc) t
  | fuel + 1, acc, '\\' :: 't' :: t => parseJsonStringAux fuel ('\t' :: acc) t
  | fuel + 1, acc, '\\' :: 'u' :: a :: b :: c :: d :: t =>
    match hex4 a b c d with
    | none => none
    | some h1 =>
      match unescapeU h1 t with
      | (ch, rest) => parseJsonStringAux fuel (ch :: acc) rest
  | _ + 1, _, '\\' :: _ => none
  | fuel + 1, acc, c :: t =>
    if c.toNat < 0x20 then none else parseJsonStringAux fuel (c :: acc) t
  | _ + 1, _, [] => none

/-- A JSON string body with enough fuel for its input. -/
def parseJsonString (cs : List Char) : Option (String × List Char) :=
  parseJsonStringAux (cs.length + 1) [] cs

/-- A JSON number (RFC 8259 grammar: `-? int frac? exp?`, no leading zeros,
no leading `+`, no bare `.`), as an exact rational and the rest. -/
def parseJsonNumber (cs : List Char) : Option (ℚ × List Char) :=
  let (neg, cs1) : Bool × List Char :=
    match cs with
    | '-' :: t => (true, t)
    | _ => (false, cs)
  let intPart : Option (List Char × List Char) :=
    match cs1 with
    | '0' :: t => some (['0'], t)
    | c :: t => if isAsciiDigit c then some (c :: (takeDigits t).1, (takeDigits t).2) else none
    | [] => none
  match intPart with
  | none => none
  | some (ds, r1) =>
    let fracPart : Option (List Char × List Char) :=
      match r1 with
      | '.' :: u =>
        if (takeDigits u).1.isEmpty then none else some ((takeDigits u).1, (takeDigits u).2)
      | _ => some ([], r1)
    match fracPart with
    | none => none
    | some (fs, r2) =>
      let expPart : Option (Int × List Char) :=
        match r2 with
        | 'e' :: u => parseJsonExponent u
        | 'E' :: u => parseJsonExponent u
        | _ => some (0, r2)
      match expPart with
      | none => none
      | some (e, r3) =>
        some ((if neg then -1 else 1) * decimalValue ds fs * 10 ^ e, r3)
where
  parseJsonExponent (u : List Char) : Option (Int × List Char) :=
    match u with
    | '-' :: w =>
      if (takeDigits w).1.isEmpty then none
      else some (-(digitsToNat (takeDigits w).1 : Int), (takeDigits w).2)
    | '+' :: w =>
      if (takeDigits w).1.isEmpty then none
      else some ((digitsToNat (takeDigits w).1 : Int), (takeDigits w).2)
    | w =>
      if (takeDigits w).1.isEmpty then none
      else some ((digitsToNat (takeDigits w).1 : Int), (takeDigits w).2)

/-- JavaScript object semantics for a duplicated key: the member keeps the
position of its first occurrence and the value of its last assignment. -/
def setMember (k : String) (v : Json) : List (String × Json) → List (String × Json)
  | [] => [(k, v)]
  | (k0, v0) :: t => if k0 = k then (k0, v) :: t else (k0, v0) :: setMember k v t

def objFromPairs (pairs : List (String × Json)) : List (String × Json) :=
  pairs.foldl (fun acc kv => setMember kv.1 kv.2 acc) []

mutual

/-- One JSON value, leading whitespace allowed.  The fuel only bounds the
recursion: every recursive call either consumes at least one character or
moves to a strict subterm, so `2 * length + 2` fuel is never exhausted. -/
def parseJsonValue : Nat → List Char → Option (Json × List Char)
  | 0, _ => none
  | fuel + 1, cs =>
    match cs.dropWhile isJsonWs with
    | 'n' :: 'u' :: 'l' :: 'l' :: t => some (.null, t)
    | 't' :: 'r' :: 'u' :: 'e' :: t => some (.bool true, t)
    | 'f' :: 'a' :: 'l' :: 's' :: 'e' :: t => some (.bool false, t)
    | '"' :: t =>
      match parseJsonString t with
      | some (s, r) => some (.str s, r)
      | none => none
    | '[' :: t =>
      match t.dropWhile isJsonWs with
      | ']' :: u => some (.arr [], u)
      | _ =>
        match parseJsonElems fuel t with
        | some (es, r) => some (.arr es, r)
        | none => none
    | '{' :: t =>
      match t.dropWhile isJsonWs with
      | '}' :: u => some (.obj [], u)
      | _ =>
        match parseJsonMembers fuel t with
        | some (ms, r) => some (.obj (objFromPairs ms), r)
        | none => none
    | rest =>
      match parseJsonNumber rest with
      | some (q, r) => some (.num q, r)
      | none => none

/-- The elements of a non-empty array, after the opening bracket or a comma. -/
def parseJsonElems : Nat → List Char → Option (List Json × List Char)
  | 0, _ => none
  | fuel + 1, cs =>
    match parseJsonValue fuel cs with
    | some (v, r) =>
      match r.dropWhile isJsonWs with
      | ',' :: u =>
        match parseJsonElems fuel u with
        | some (es, r2) => some (v :: es, r2)
        | none => none
      | ']' :: u => some ([v], u)
      | _ => none
    | none => none

/-- The members of a non-empty object, after the opening brace or a comma,
in document order with duplicates kept (resolved by `objFromPairs`). -/
def parseJsonMembers : Nat → List Char → Option (List (String × Json) × List Char)
  | 0, _ => none
  | fuel + 1, cs =>
    match cs.dropWhile isJsonWs with
    | '"' :: t =>
      match parseJsonString t with
      | some (k, r) =>
        match r.dropWhile isJsonWs with
        | ':' :: u =>
          match parseJsonValue fuel u with
          | some (v, r2) =>
            match r2.dropWhile isJsonWs with
            | ',' :: w =>
              match parseJsonMembers fuel w with
              | some (ms, r3) => some ((k, v) :: ms, r3)
              | none => none
            | '}' :: w => some ([(k, v)], w)
            | _ => none
          | none => none
        | _ => none
      | none => none
    | _ => none

end

/-- `JSON.parse` (line 140): the whole text must be one JSON value, modulo
surrounding whitespace; `none` models the thrown `SyntaxError`. -/
def jsonParse (s : String) : Option Json :=
  match parseJsonValue (2 * s.toList.length + 2) s.toList with
  | some (v, rest) => if (rest.dropWhile isJsonWs).isEmpty then some v else none
  | none => none

/-! ## The response validator (lines 139-152) -/

/-- JavaScript falsiness of a parsed JSON value (`!parsed` on line 142):
`null`, `false`, `0` and `""` are falsy; objects and arrays never are. -/
def Json.isFalsy : Json → Bool
  | .null => true
  | .bool b => !b
  | .num q => q == 0
  | .str s => s = ""
  | _ => false

/-- `typeof parsed === 'object'` (line 142): true for objects, arrays and
`null` in JavaScript. -/
def Json.typeofObject : Json → Bool
  | .null => true
  | .arr _ => true
  | .obj _ => true
  | _ => false

/-- `Array.isArray(parsed)` (line 142). -/
def Json.isArray : Json → Bool
  | .arr _ => true
  | _ => false

/-- `Object.keys(parsed)` (line 146): the own keys in insertion order. -/
def Json.objKeys : Json → List String
  | .obj ms => ms.map Prod.fst
  | _ => []

/-- The test `/^scene_\d+$/.test(k)` (line 147): `scene_` followed by one or
more ASCII digits and nothing else.  Note `\d+` accepts `0` and leading
zeros. -/
def isSceneKey (k : String) : Bool :=
  match k.toList with
  | 's' :: 'c' :: 'e' :: 'n' :: 'e' :: '_' :: rest => !rest.isEmpty && rest.all isAsciiDigit
  | _ => false

/-- The `JSON.parse` failure is a `SyntaxError` whose message text is
engine-specific; the model uses a fixed placeholder, and no claim depends on
its wording, only on the failure's kind. -/
def jsonSyntaxMsg : String :=
  "Unexpected token - the response is not valid JSON"

/-- The message of the `throw` on line 143. -/
def unexpectedShapeMsg : String :=
  "Unexpected AI response: expected a JSON object with scene_* keys."

/-- The message of the `throw` on line 149. -/
def missingSceneKeysMsg : String :=
  "AI response missing expected scene_N keys."

/-- Lines 139-152 of `generatePromptFromRequest`: trim the response text,
`JSON.parse` it, reject a falsy or non-object or array value, reject an
object with no `scene_<digits>` key, and return the parsed object itself
unchanged. -/
def validateSceneResponse (responseText : String) : Except CoreError Json :=
  let jsonString := String.mk (jsTrim responseText.toList)
  match jsonParse jsonString with
  | none => .error (.malformedResponse jsonSyntaxMsg)
  | some parsed =>
    if parsed.isFalsy || !parsed.typeofObject || parsed.isArray then
      .error (.unexpectedShape unexpectedShapeMsg)
    else if !((Json.objKeys parsed).any isSceneKey) then
      .error (.missingSceneKeys missingSceneKeysMsg)
    else .ok parsed

/-! ## The planner, `generatePromptFromRequest` (lines 89-164) -/

/-- The message of the `throw` in `getAiClient` (line 5). -/
def apiKeyMissingMsg : String :=
  "API Key not provided. Please set it in the Settings tab."

/-- Lines 3-8, `getAiClient`: an empty key (the only falsy string) is
rejected before any client exists; the client itself is the external
gateway, represented by `Unit`. -/
def getAiClient (apiKey : String) : Except CoreError Unit :=
  if apiKey = "" then .error (.missingApiKey apiKeyMissingMsg) else .ok ()

/-- Line 92: `Math.ceil(totalSeconds / 8)`.  Division by 8 only lowers the
binary exponent of a double and `Math.ceil` of a finite double is the exact
ceiling, so for a finite total the source's count is the rational ceiling
of the total's value. -/
def sceneCountOf (totalSeconds : ℚ) : Int :=
  ⌈totalSeconds / 8⌉

/-- The text `${promptsToGenerate}` interpolates: for a finite total the
ceiling of line 92; a non-finite total propagates through
`Math.ceil(totalSeconds / 8)` and prints as its own token. -/
def sceneCountTok : JsNum → String
  | .fin m e => toString (sceneCountOf (dblVal m e))
  | .inf neg => if neg then "-Infinity" else "Infinity"
  | .nan => "NaN"

/-- The text `${promptsToGenerate * 8}` interpolates (the multiplication by
8 of an integer count is exact; an infinity stays an infinity). -/
def sceneCount8Tok : JsNum → String
  | .fin m e => toString (sceneCountOf (dblVal m e) * 8)
  | .inf neg => if neg then "-Infinity" else "Infinity"
  | .nan => "NaN"

/-- The meta-prompt template of lines 95-128, with the three interpolation
sites (the count token twice, the count-times-8 token once);
`\x7b`/`\x7d` spell the literal braces of the schema block. -/
def metaPrompt (videoIdea countTok count8Tok : String) : String :=
  "\nYou are an expert cinematic prompt architect. Take the user's video idea and split it into a sequence of scenes for a text-to-video model.\n\nRules:\n1) Generate exactly " ++
  countTok ++
  " scenes; each scene describes ~8 seconds of footage (total ≈ " ++
  count8Tok ++
  "s).\n2) Maintain strict character continuity. For any recurring character, repeat a consistent, explicit description in every scene's Output_Format.Structure.character_details. Do not assume prior memory.\n3) Maintain a coherent story and visual continuity from one scene to the next.\n4) Keep photorealistic, 4K, cinematic style throughout unless the idea specifies otherwise.\n5) Output MUST be a single JSON object with keys \"scene_1\"..\"scene_" ++
  countTok ++
  "\", no extra text.\n\nScene Object Schema (for each scene_N):\n\x7b\n  \"Objective\": string,\n  \"Objective_vi\": string,              // 1 câu tóm tắt ngắn gọn bằng tiếng Việt\n  \"Persona\": \x7b \"Role\": string, \"Tone\": string, \"Knowledge_Level\": string \x7d,\n  \"Task_Instructions\": string[],\n  \"Constraints\": string[],\n  \"Input_Examples\": [\x7b \"Input\": string, \"Expected_Output\": string \x7d],\n  \"Output_Format\": \x7b\n    \"Type\": \"video/mp4\",\n    \"Structure\": \x7b\n      \"character_details\": string,        // Repeat full character description here for consistency\n      \"setting_details\": string,\n      \"key_action\": string,\n      \"camera_direction\": string\n    \x7d\n  \x7d\n\x7d\n\nUser Input:\n- Video Idea: \"\"\"" ++
  videoIdea ++
  "\"\"\"\n\nReturn only the JSON object described above. No markdown, no prose, no code fences.\n"

/-- The body of the `try` block (lines 90-152), over an abstract generation
gateway (`ai.models.generateContent` returning `response.text`, or a failure
message); the second component counts the gateway calls made. -/
def generateAttempt (gateway : String → Except String String)
    (videoIdea videoDuration apiKey : String) : Except CoreError Json × Nat :=
  match parseDurationToSeconds videoDuration with
  | .error e => (.error e, 0)
  | .ok totalSeconds =>
    match getAiClient apiKey with
    | .error e => (.error e, 0)
    | .ok _ =>
      match gateway (metaPrompt videoIdea (sceneCountTok totalSeconds)
          (sceneCount8Tok totalSeconds)) with
      | .error msg => (.error (.gatewayFailure msg), 1)
      | .ok text => (validateSceneResponse text, 1)

/-- `error.message.includes('API key not valid')` (line 157). -/
def strIncludesAux (needle : List Char) : List Char → Bool
  | [] => needle.isEmpty
  | c :: t => needle.isPrefixOf (c :: t) || strIncludesAux needle t

def strIncludes (hay needle : String) : Bool :=
  strIncludesAux needle.toList hay.toList

/-- The message of the `throw` on line 158. -/
def apiKeyInvalidMsg : String :=
  "The provided API key is not valid. Please check it in the Settings tab."

/-- The needle of the `includes` test on line 157. -/
def apiKeyInvalidNeedle : String :=
  "API key not valid"

/-- The head of the wrapped message on line 160. -/
def genFailHead : String :=
  "Failed to generate scenes: "

/-- The `catch` block (lines 154-163): a message containing
`API key not valid` becomes the invalid-credential message; every other
failure's message is re-wrapped behind `Failed to generate scenes: ` (every
modelled failure is an `Error`, so the `instanceof` branch always applies).
The error type collapses to the plain message, as the re-thrown `Error`
does. -/
def applyCatch (r : Except CoreError Json × Nat) : Except String Json × Nat :=
  match r with
  | (.ok v, n) => (.ok v, n)
  | (.error e, n) =>
    if strIncludes e.message apiKeyInvalidNeedle then (.error apiKeyInvalidMsg, n)
    else (.error (genFailHead ++ e.message), n)

/-- Lines 89-164, `generatePromptFromRequest`: the `try` body, then the
`catch` block. -/
def generatePromptFromRequest (gateway : String → Except String String)
    (videoIdea videoDuration apiKey : String) : Except String Json × Nat :=
  applyCatch (generateAttempt gateway videoIdea videoDuration apiKey)

/-! ## Evaluation lemmas for the duration parser -/

/-- An `ite` avoids `NaN` when both branches do. -/
theorem ite_ne_nan {c : Prop} [Decidable c] (x y : JsNum)
    (hx : x ≠ .nan) (hy : y ≠ .nan) : (if c then x else y) ≠ .nan := by
  by_cases h : c
  · rwa [if_pos h]
  · rwa [if_neg h]

theorem neg_ne_nan (x : JsNum) (h : x ≠ .nan) : x.neg ≠ .nan := by
  cases x with
  | fin m e => intro h2; cases h2
  | inf s => intro h2; cases h2
  | nan => exact absurd rfl h

/-- The canonicalisation never invents a `NaN`. -/
theorem canonAux_ne_nan (fuel : Nat) (m e : Int) : canonAux fuel m e ≠ .nan := by
  induction fuel generalizing m e with
  | zero => intro h; cases h
  | succ fuel ih =>
    rw [canonAux]
    exact ite_ne_nan _ _ (ih _ _) (fun h => JsNum.noConfusion h)

theorem canonFin_ne_nan (m e : Int) : canonFin m e ≠ .nan := by
  rw [canonFin]
  exact ite_ne_nan _ _ (fun h => JsNum.noConfusion h)
    (ite_ne_nan _ _ (fun h => JsNum.noConfusion h) (canonAux_ne_nan _ _ _))

/-- Rounding a rational returns a finite double or an infinity, never
`NaN`. -/
theorem roundPosRat_ne_nan (a b : Nat) : roundPosRat a b ≠ .nan := by
  simp only [roundPosRat]
  exact ite_ne_nan _ _ (fun h => JsNum.noConfusion h) (canonFin_ne_nan _ _)

theorem roundRatToDbl_ne_nan (a : Int) (b : Nat) : roundRatToDbl a b ≠ .nan := by
  rw [roundRatToDbl]
  exact ite_ne_nan _ _ (fun h => JsNum.noConfusion h)
    (ite_ne_nan _ _ (roundPosRat_ne_nan _ _) (neg_ne_nan _ (roundPosRat_ne_nan _ _)))

/-- `parseFloat` of a readable prefix is a number or an infinity, never
`NaN`. -/
theorem toJsNum_ne_nan (r : FloatRep) : r.toJsNum ≠ .nan := by
  simp only [FloatRep.toJsNum]
  exact ite_ne_nan _ _ (neg_ne_nan _ (roundRatToDbl_ne_nan _ _)) (roundRatToDbl_ne_nan _ _)

/-- With at least one regex match, the parser returns the left-to-right
double accumulation of the matches' contributions, guarded by the
`NaN`-or-non-positive check. -/
theorem parse_eq_of_scan (s : String) (ms : List DurMatch)
    (h : scanMatches (normalizeDuration s) = ms) (hne : ms.isEmpty = false) :
    parseDurationToSeconds s =
      if ((ms.map contribution).foldl jsAdd (.fin 0 0)).isNaN
          || ((ms.map contribution).foldl jsAdd (.fin 0 0)).le0 then
        .error (.invalidDuration invalidDurationMsg)
      else .ok ((ms.map contribution).foldl jsAdd (.fin 0 0)) := by
  simp only [parseDurationToSeconds, h, hne, Bool.false_eq_true, if_false]

/-- With no regex match and a number prefix for `parseFloat`, the parser
returns the rounded number when it is finite and positive; a non-positive
finite value fails at the final guard, and an overflowed (infinite) value
is refused by the `isFinite` check of line 69, so the total stays `0` and
the parser fails. -/
theorem parse_eq_of_float (s : String) (r : FloatRep)
    (h : scanMatches (normalizeDuration s) = [])
    (hf : jsParseFloatRep (normalizeDuration s) = some r) :
    parseDurationToSeconds s =
      if (FloatRep.toJsNum r).isFiniteB then
        (if (FloatRep.toJsNum r).le0 then .error (.invalidDuration invalidDurationMsg)
         else .ok (FloatRep.toJsNum r))
      else .error (.invalidDuration invalidDurationMsg) := by
  have hnn := toJsNum_ne_nan r
  simp only [parseDurationToSeconds, h, List.isEmpty_nil, if_true, jsParseFloat, hf]
  cases hv : FloatRep.toJsNum r with
  | fin m e =>
    simp only [JsNum.isNaN, JsNum.isFiniteB, JsNum.le0, Bool.not_false, Bool.and_self,
      if_true, Bool.false_or]
  | inf neg =>
    simp only [JsNum.isNaN, JsNum.isFiniteB, JsNum.le0, Bool.not_false, Bool.and_false,
      Bool.false_eq_true, if_false]
    rfl
  | nan => exact absurd hv hnn

/-- With no regex match and no number prefix (`parseFloat` returns `NaN`),
the `isNaN` check of line 69 refuses the fallback, the total stays `0` and
the parser fails. -/
theorem parse_eq_of_nan (s : String)
    (h : scanMatches (normalizeDuration s) = [])
    (hf : jsParseFloatRep (normalizeDuration s) = none) :
    parseDurationToSeconds s = .error (.invalidDuration invalidDurationMsg) := by
  simp only [parseDurationToSeconds, h, List.isEmpty_nil, if_true, jsParseFloat, hf]
  rfl

/-- The final guard (line 74) only lets a finite total through when its
significand — hence its value — is strictly positive. -/
theorem guard_fin_pos (t : JsNum) (m e : Int)
    (h : (if t.isNaN || t.le0 then
            (.error (.invalidDuration invalidDurationMsg) : Except CoreError JsNum)
          else .ok t) = .ok (.fin m e)) : 0 < m := by
  by_cases hc : (t.isNaN || t.le0) = true
  · rw [if_pos hc] at h
    cases h
  · rw [if_neg hc] at h
    cases h
    simp only [JsNum.isNaN, JsNum.le0, Bool.false_or, decide_eq_true_eq] at hc
    omega

/-- The final guard (lines 74-76) fails only with the fixed
`InvalidDurationError` message. -/
theorem guard_error (t : JsNum) (e : CoreError)
    (h : (if t.isNaN || t.le0 then
            (.error (.invalidDuration invalidDurationMsg) : Except CoreError JsNum)
          else .ok t) = .error e) : e = .invalidDuration invalidDurationMsg := by
  by_cases ht : (t.isNaN || t.le0) = true
  · rw [if_pos ht] at h
    cases h
    rfl
  · rw [if_neg ht] at h
    cases h

/-- Every finite value the parser returns has a strictly positive
significand (the guard on line 74). -/
theorem parse_fin_pos (s : String) (m e : Int)
    (h : parseDurationToSeconds s = .ok (.fin m e)) : 0 < m := by
  simp only [parseDurationToSeconds] at h
  exact guard_fin_pos _ m e h

/-- A finite double with positive significand has positive value. -/
theorem dblVal_pos (m e : Int) (h : 0 < m) : 0 < dblVal m e := by
  have h2 : (0:ℚ) < (m:ℚ) := by exact_mod_cast h
  have h3 : (0:ℚ) < (2:ℚ) ^ e := zpow_pos (by norm_num) e
  exact mul_pos h2 h3

/-- Every parse failure is the `InvalidDurationError` with the fixed
format-hint message of line 75. -/
theorem parse_error_eq (s : String) (e : CoreError)
    (h : parseDurationToSeconds s = .error e) : e = .invalidDuration invalidDurationMsg := by
  simp only [parseDurationToSeconds] at h
  exact guard_error _ e h

/-! ## Digit-free inputs -/

/-- A suffix keeps the `all` property. -/
theorem all_of_suffix {p : Char → Bool} {l₁ l₂ : List Char}
    (hs : l₁ <:+ l₂) (h : l₂.all p = true) : l₁.all p = true := by
  rw [List.all_eq_true] at *
  intro c hc
  exact h c (hs.subset hc)

/-- `takeDigits` finds nothing on a digit-free list. -/
theorem takeDigits_all_nondigit (l : List Char)
    (h : l.all (fun c => !isAsciiDigit c) = true) : takeDigits l = ([], l) := by
  cases l with
  | nil => rfl
  | cons c t =>
    rw [List.all_cons] at h
    obtain ⟨hc, _⟩ := (Bool.and_eq_true _ _).mp h
    have hc' : isAsciiDigit c = false := by
      cases hd : isAsciiDigit c
      · rfl
      · rw [hd] at hc; cases hc
    simp [takeDigits, hc']

/-- No regex attempt succeeds without a leading digit. -/
theorem matchAt_none_of_head (c : Char) (t : List Char)
    (hc : isAsciiDigit c = false) : matchAt (c :: t) = none := by
  have : takeDigits (c :: t) = ([], c :: t) := by simp [takeDigits, hc]
  simp [matchAt, this]

/-- The scan of a digit-free list yields no match. -/
theorem scanAux_all_nondigit (fuel : Nat) (l : List Char)
    (h : l.all (fun c => !isAsciiDigit c) = true) : scanAux fuel l = [] := by
  induction fuel generalizing l with
  | zero => rfl
  | succ fuel ih =>
    cases l with
    | nil => rfl
    | cons c t =>
      rw [List.all_cons] at h
      obtain ⟨hc, ht⟩ := (Bool.and_eq_true _ _).mp h
      have hc' : isAsciiDigit c = false := by
        cases hd : isAsciiDigit c
        · rfl
        · rw [hd] at hc; cases hc
      rw [scanAux, matchAt_none_of_head c t hc']
      exact ih t ht


theorem char_le_iff_toNat (a b : Char) : a ≤ b ↔ a.toNat ≤ b.toNat := by
  rw [Char.le_def, UInt32.le_def, BitVec.le_def]
  exact Iff.rfl

theorem uint32_le_iff_toNat (a b : UInt32) : a ≤ b ↔ a.toNat ≤ b.toNat := by
  rw [UInt32.le_def, BitVec.le_def]
  exact Iff.rfl

theorem toNat_ofNat_valid (n : Nat) (h : n < 55296) : (Char.ofNat n).toNat = n := by
  have hv : n.isValidChar := Or.inl h
  rw [Char.ofNat, dif_pos hv]
  rfl

theorem jsToLower_nondigit (c : Char) : isAsciiDigit (jsToLower c) = isAsciiDigit c := by
  have cA : ('A').toNat = 65 := rfl
  have cZ : ('Z').toNat = 90 := rfl
  have c0 : ('0').toNat = 48 := rfl
  have c9 : ('9').toNat = 57 := rfl
  have u192 : (192 : UInt32).toNat = 192 := rfl
  have u222 : (222 : UInt32).toNat = 222 := rfl
  have hvt : c.val.toNat = c.toNat := rfl
  unfold jsToLower
  split_ifs with h1 h2
  · simp only [Bool.and_eq_true, decide_eq_true_eq] at h1
    obtain ⟨ha, hz⟩ := h1
    rw [char_le_iff_toNat, cA] at ha
    rw [char_le_iff_toNat, cZ] at hz
    have hofn : (Char.ofNat (c.toNat + 32)).toNat = c.toNat + 32 :=
      toNat_ofNat_valid _ (by omega)
    have e1 : isAsciiDigit (Char.ofNat (c.toNat + 32)) = false := by
      have hx : ¬ (Char.ofNat (c.toNat + 32) ≤ '9') := by
        rw [char_le_iff_toNat, hofn, c9]
        omega
      simp [isAsciiDigit, hx]
    have e2 : isAsciiDigit c = false := by
      have hx : ¬ (c ≤ '9') := by
        rw [char_le_iff_toNat, c9]
        omega
      simp [isAsciiDigit, hx]
    rw [e1, e2]
  · simp only [Bool.and_eq_true, decide_eq_true_eq] at h2
    obtain ⟨⟨ha, hz⟩, hne⟩ := h2
    rw [uint32_le_iff_toNat, u192, hvt] at ha
    rw [uint32_le_iff_toNat, u222, hvt] at hz
    have hofn : (Char.ofNat (c.toNat + 32)).toNat = c.toNat + 32 :=
      toNat_ofNat_valid _ (by omega)
    have e1 : isAsciiDigit (Char.ofNat (c.toNat + 32)) = false := by
      have hx : ¬ (Char.ofNat (c.toNat + 32) ≤ '9') := by
        rw [char_le_iff_toNat, hofn, c9]
        omega
      simp [isAsciiDigit, hx]
    have e2 : isAsciiDigit c = false := by
      have hx : ¬ (c ≤ '9') := by
        rw [char_le_iff_toNat, c9]
        omega
      simp [isAsciiDigit, hx]
    rw [e1, e2]
  · rfl


theorem replaceFirstComma_all_nondigit (l : List Char)
    (h : l.all (fun c => !isAsciiDigit c) = true) :
    (replaceFirstComma l).all (fun c => !isAsciiDigit c) = true := by
  induction l with
  | nil => rfl
  | cons c t ih =>
    rw [List.all_cons] at h
    obtain ⟨hc, ht⟩ := (Bool.and_eq_true _ _).mp h
    by_cases hcm : c = ','
    · subst hcm
      simp only [replaceFirstComma, if_pos rfl, List.all_cons]
      exact (Bool.and_eq_true _ _).mpr ⟨by decide, ht⟩
    · simp only [replaceFirstComma, if_neg hcm, List.all_cons]
      exact (Bool.and_eq_true _ _).mpr ⟨hc, ih ht⟩

theorem all_jsTrim (l : List Char) (p : Char → Bool)
    (h : l.all p = true) : (jsTrim l).all p = true := by
  rw [List.all_eq_true] at h ⊢
  intro c hcmem
  apply h
  unfold jsTrim at hcmem
  rw [List.mem_reverse] at hcmem
  have h2 := (List.dropWhile_suffix isJsWhitespace).subset hcmem
  rw [List.mem_reverse] at h2
  exact (List.dropWhile_suffix isJsWhitespace).subset h2

theorem all_map_jsToLower (l : List Char)
    (h : l.all (fun c => !isAsciiDigit c) = true) :
    (l.map jsToLower).all (fun c => !isAsciiDigit c) = true := by
  rw [List.all_eq_true] at h ⊢
  intro x hx
  rw [List.mem_map] at hx
  obtain ⟨c, hcmem, rfl⟩ := hx
  have hl := jsToLower_nondigit c
  have hmem := h c hcmem
  simp only at hmem ⊢
  rw [hl]
  exact hmem

theorem normalize_all_nondigit (s : String)
    (h : s.toList.all (fun c => !isAsciiDigit c) = true) :
    (normalizeDuration s).all (fun c => !isAsciiDigit c) = true := by
  unfold normalizeDuration
  exact replaceFirstComma_all_nondigit _ (all_map_jsToLower _ (all_jsTrim _ _ h))

theorem fracPart_fst_nil (l : List Char)
    (h : l.all (fun c => !isAsciiDigit c) = true) : (fracPart l).1 = [] := by
  cases l with
  | nil => rfl
  | cons c t =>
    rw [List.all_cons] at h
    obtain ⟨hc, ht⟩ := (Bool.and_eq_true _ _).mp h
    by_cases hdot : c = '.'
    · subst hdot
      show (takeDigits t).1 = []
      rw [takeDigits_all_nondigit t ht]
    · unfold fracPart
      split
      · rename_i t2 heq
        injection heq with h1 h2x
        exact absurd h1 hdot
      · rfl

theorem floatDigitsRep_all_nondigit (neg : Bool) (cs2 : List Char)
    (h : cs2.all (fun c => !isAsciiDigit c) = true) : floatDigitsRep neg cs2 = none := by
  have h2 := takeDigits_all_nondigit cs2 h
  have hfst : (takeDigits cs2).1 = [] := by rw [h2]
  have hsnd : (takeDigits cs2).2 = cs2 := by rw [h2]
  have hf : (fracPart cs2).1 = [] := fracPart_fst_nil cs2 h
  simp only [floatDigitsRep, hfst, hsnd, hf, List.isEmpty_nil, Bool.and_self, if_pos]

theorem jsParseFloatRep_all_nondigit (l : List Char)
    (h : l.all (fun c => !isAsciiDigit c) = true) : jsParseFloatRep l = none := by
  have h1 : (l.dropWhile isJsWhitespace).all (fun c => !isAsciiDigit c) = true :=
    all_of_suffix (List.dropWhile_suffix _) h
  unfold jsParseFloatRep
  split
  · rename_i t heq
    rw [heq, List.all_cons] at h1
    exact floatDigitsRep_all_nondigit _ _ ((Bool.and_eq_true _ _).mp h1).2
  · rename_i t heq
    rw [heq, List.all_cons] at h1
    exact floatDigitsRep_all_nondigit _ _ ((Bool.and_eq_true _ _).mp h1).2
  · exact floatDigitsRep_all_nondigit _ _ h1

theorem parse_nondigit_error (s : String)
    (h : s.toList.all (fun c => !isAsciiDigit c) = true) :
    parseDurationToSeconds s = .error (.invalidDuration invalidDurationMsg) := by
  have hn := normalize_all_nondigit s h
  apply parse_eq_of_nan
  · exact scanAux_all_nondigit _ _ hn
  · exact jsParseFloatRep_all_nondigit _ hn


theorem validate_malformed (raw : String)
    (h : jsonParse (String.mk (jsTrim raw.toList)) = none) :
    validateSceneResponse raw = .error (.malformedResponse jsonSyntaxMsg) := by
  simp only [validateSceneResponse, h]

theorem validate_shape (raw : String) (v : Json)
    (h : jsonParse (String.mk (jsTrim raw.toList)) = some v)
    (hv : (v.isFalsy || !v.typeofObject || v.isArray) = true) :
    validateSceneResponse raw = .error (.unexpectedShape unexpectedShapeMsg) := by
  simp only [validateSceneResponse, h, hv, if_true]

theorem validate_missing (raw : String) (v : Json)
    (h : jsonParse (String.mk (jsTrim raw.toList)) = some v)
    (hv : (v.isFalsy || !v.typeofObject || v.isArray) = false)
    (hk : (Json.objKeys v).any isSceneKey = false) :
    validateSceneResponse raw = .error (.missingSceneKeys missingSceneKeysMsg) := by
  simp only [validateSceneResponse, h, hv, Bool.false_eq_true, if_false, hk, Bool.not_false,
    if_true]

theorem validate_accepts (raw : String) (v : Json)
    (h : jsonParse (String.mk (jsTrim raw.toList)) = some v)
    (hv : (v.isFalsy || !v.typeofObject || v.isArray) = false)
    (hk : (Json.objKeys v).any isSceneKey = true) :
    validateSceneResponse raw = .ok v := by
  simp only [validateSceneResponse, h, hv, Bool.false_eq_true, if_false, hk, Bool.not_true]

theorem validate_ok_inv (raw : String) (v : Json)
    (h : validateSceneResponse raw = .ok v) :
    jsonParse (String.mk (jsTrim raw.toList)) = some v := by
  simp only [validateSceneResponse] at h
  cases hj : jsonParse (String.mk (jsTrim raw.toList)) with
  | none => rw [hj] at h; cases h
  | some p =>
    rw [hj] at h
    dsimp only at h
    by_cases h1 : (p.isFalsy || !p.typeofObject || p.isArray) = true
    · rw [if_pos h1] at h; cases h
    · rw [if_neg h1] at h
      by_cases h2 : (!(Json.objKeys p).any isSceneKey) = true
      · rw [if_pos h2] at h; cases h
      · rw [if_neg h2] at h
        cases h
        rfl

theorem applyCatch_snd (r : Except CoreError Json × Nat) : (applyCatch r).2 = r.2 := by
  rcases r with ⟨res, n⟩
  cases res with
  | ok v => rfl
  | error e =>
    by_cases hI : strIncludes e.message apiKeyInvalidNeedle = true
    · simp [applyCatch, hI]
    · simp [applyCatch, hI]

theorem generateAttempt_calls_zero_of_empty_key (gateway : String → Except String String)
    (idea dur : String) :
    (generateAttempt gateway idea dur "").2 = 0 := by
  unfold generateAttempt
  cases hp : parseDurationToSeconds dur with
  | error e => rfl
  | ok d => simp [getAiClient]

theorem generate_calls_zero_of_empty_key (gateway : String → Except String String)
    (idea dur : String) :
    (generatePromptFromRequest gateway idea dur "").2 = 0 := by
  rw [generatePromptFromRequest, applyCatch_snd]
  exact generateAttempt_calls_zero_of_empty_key gateway idea dur

theorem generate_missing_key_of_parse_ok (gateway : String → Except String String)
    (idea dur : String) (d : JsNum) (h : parseDurationToSeconds dur = .ok d) :
    generatePromptFromRequest gateway idea dur "" =
      (.error (genFailHead ++ apiKeyMissingMsg), 0) := by
  have hni : strIncludes apiKeyMissingMsg apiKeyInvalidNeedle = false := by decide
  have ha : generateAttempt gateway idea dur "" =
      (.error (.missingApiKey apiKeyMissingMsg), 0) := by
    unfold generateAttempt
    rw [h]
    simp [getAiClient]
  rw [generatePromptFromRequest, ha]
  unfold applyCatch
  simp only [CoreError.message, hni, Bool.false_eq_true, if_false]

theorem generate_duration_error (gateway : String → Except String String)
    (idea dur key : String) (e : CoreError) (h : parseDurationToSeconds dur = .error e) :
    generatePromptFromRequest gateway idea dur key =
      (.error (genFailHead ++ invalidDurationMsg), 0) := by
  have he := parse_error_eq dur e h
  subst he
  have hni : strIncludes invalidDurationMsg apiKeyInvalidNeedle = false := by decide
  have ha : generateAttempt gateway idea dur key =
      (.error (.invalidDuration invalidDurationMsg), 0) := by
    unfold generateAttempt
    rw [h]
  rw [generatePromptFromRequest, ha]
  unfold applyCatch
  simp only [CoreError.message, hni, Bool.false_eq_true, if_false]

theorem replaceFirstComma_append (pre post : List Char) (h : ∀ c ∈ pre, c ≠ ',') :
    replaceFirstComma (pre ++ ',' :: post) = pre ++ '.' :: post := by
  induction pre with
  | nil => simp [replaceFirstComma]
  | cons c t ih =>
    have hc : c ≠ ',' := h c (List.mem_cons_self c t)
    simp only [List.cons_append, replaceFirstComma, if_neg hc, List.append_eq,
      ih (fun x hx => h x (List.mem_cons_of_mem _ hx))]


theorem isEmpty_false_of_ne_nil {α : Type} {l : List α} (h : l ≠ []) : l.isEmpty = false := by
  cases l
  · exact absurd rfl h
  · rfl

/-- Modelled from the spec (§4.3): a key matching `scene_<positive integer>`
— `scene_` followed by the decimal numeral of a positive integer.  Stated
only to compare the spec's key pattern with the code's `/^scene_\d+$/`. -/
def specSceneKeyPositive (k : String) : Bool :=
  match k.toList with
  | 's' :: 'c' :: 'e' :: 'n' :: 'e' :: '_' :: rest =>
    !rest.isEmpty && rest.all isAsciiDigit && digitsToNat rest != 0
  | _ => false

/-- A stub generation gateway for concrete counterexamples; it always fails,
so any run that returns another error never reached it. -/
def stubGateway : String → Except String String :=
  fun _ => .error "gateway should not be called"

/-- A duration whose single token — the digit 1, then 309 zeros, then the
unit s — carries a 310-digit value: `parseFloat` of the capture is
`10 ^ 309`, beyond the largest double (about `1.8 * 10 ^ 308`), so the
loop's value — and with it the total — is `Infinity`. -/
def overflowDurationStr : String :=
  String.mk ('1' :: (List.replicate 309 '0' ++ ['s']))

/-- C2 counterexample: the total is NOT independent of the order of the
tokens.  The inputs "0.1s 0.2s 0.3s" and "0.3s 0.2s 0.1s" produce match
lists that are permutations of each other, yet double addition rounds each
step, and `(0.1 + 0.2) + 0.3 = 0.6000000000000001` while
`(0.3 + 0.2) + 0.1 = 0.6` — two different doubles
(`1351079888211149 * 2 ^ (-51)` versus `5404319552844595 * 2 ^ (-53)`). -/
theorem parse_order_dependent :
    (scanMatches (normalizeDuration "0.1s 0.2s 0.3s")).Perm
      (scanMatches (normalizeDuration "0.3s 0.2s 0.1s")) ∧
    parseDurationToSeconds "0.1s 0.2s 0.3s" = .ok (.fin 1351079888211149 (-51)) ∧
    parseDurationToSeconds "0.3s 0.2s 0.1s" = .ok (.fin 5404319552844595 (-53)) ∧
    dblVal 1351079888211149 (-51) ≠ dblVal 5404319552844595 (-53) := by
  refine ⟨by decide, by decide, by decide, ?_⟩
  norm_num [dblVal]

/-- C2 (amended): a minute-unit match contributes `value * 60` (the double
product), a second-unit match contributes `value`; with at least one match
the result is the guarded LEFT-TO-RIGHT double accumulation of the
contributions in input order — on exactly representable sums the order is
immaterial ("1m 30s" and "30s 1m" both give 90), but rounding can make it
matter (see the order-dependence counterexample) — and the four concrete
examples of the spec hold exactly: 90, 135, 60 and 30 seconds. -/
theorem parse_token_sum :
    (∀ m : DurMatch, contribution m =
        if minuteUnits.contains m.unit then jsMulInt m.value 60 else m.value) ∧
    (∀ s : String, scanMatches (normalizeDuration s) ≠ [] →
        parseDurationToSeconds s =
          if (((scanMatches (normalizeDuration s)).map contribution).foldl jsAdd
                (.fin 0 0)).isNaN
              || (((scanMatches (normalizeDuration s)).map contribution).foldl jsAdd
                (.fin 0 0)).le0 then
            .error (.invalidDuration invalidDurationMsg)
          else
            .ok (((scanMatches (normalizeDuration s)).map contribution).foldl jsAdd
              (.fin 0 0))) ∧
    parseDurationToSeconds "1m 30s" = .ok (.fin 90 0) ∧
    parseDurationToSeconds "30s 1m" = .ok (.fin 90 0) ∧
    parseDurationToSeconds "2m 15s" = .ok (.fin 135 0) ∧
    parseDurationToSeconds "1 phút" = .ok (.fin 60 0) ∧
    parseDurationToSeconds "30 giây" = .ok (.fin 30 0) ∧
    dblVal 90 0 = 90 ∧ dblVal 135 0 = 135 ∧ dblVal 60 0 = 60 ∧ dblVal 30 0 = 30 := by
  refine ⟨fun m => rfl,
    fun s hne => parse_eq_of_scan s _ rfl (isEmpty_false_of_ne_nil hne),
    by decide, by decide, by decide, by decide, by decide, ?_, ?_, ?_, ?_⟩ <;>
    norm_num [dblVal]

/-- C3 counterexample: the code's key test is `/^scene_\d+$/`, so the object
with the single key `scene_0` — which matches no `scene_<positive integer>`
pattern — is ACCEPTED rather than rejected with `MissingSceneKeysError`. -/
theorem validator_accepts_scene_zero :
    validateSceneResponse "\x7b\"scene_0\":true\x7d" =
      .ok (Json.obj [("scene_0", Json.bool true)]) ∧
    specSceneKeyPositive "scene_0" = false ∧ isSceneKey "scene_0" = true :=
  ⟨rfl, by decide, by decide⟩

/-- C3 (amended): the checks run in the fixed order parse / shape / keys,
each failure with its own error kind; the accepted key pattern is
`scene_<digit sequence>` (`\d+`, allowing 0 and leading zeros); the spec's
four concrete cases behave as stated. -/
theorem validator_fixed_order :
    (∀ raw : String, jsonParse (String.mk (jsTrim raw.toList)) = none →
        validateSceneResponse raw = .error (.malformedResponse jsonSyntaxMsg)) ∧
    (∀ (raw : String) (v : Json), jsonParse (String.mk (jsTrim raw.toList)) = some v →
        (v.isFalsy || !v.typeofObject || v.isArray) = true →
        validateSceneResponse raw = .error (.unexpectedShape unexpectedShapeMsg)) ∧
    (∀ (raw : String) (v : Json), jsonParse (String.mk (jsTrim raw.toList)) = some v →
        (v.isFalsy || !v.typeofObject || v.isArray) = false →
        (Json.objKeys v).any isSceneKey = false →
        validateSceneResponse raw = .error (.missingSceneKeys missingSceneKeysMsg)) ∧
    validateSceneResponse "not json" = .error (.malformedResponse jsonSyntaxMsg) ∧
    validateSceneResponse "[1,2,3]" = .error (.unexpectedShape unexpectedShapeMsg) ∧
    validateSceneResponse "\x7b\"foo\":1\x7d" = .error (.missingSceneKeys missingSceneKeysMsg) ∧
    validateSceneResponse "\x7b\"scene_1\":\x7b\x7d\x7d" =
      .ok (Json.obj [("scene_1", Json.obj [])]) ∧
    Json.objKeys (Json.obj [("scene_1", Json.obj [])]) = ["scene_1"] :=
  ⟨validate_malformed, validate_shape, validate_missing, rfl, rfl, rfl, rfl, rfl⟩

/-- C4 counterexample: `parse("-5s")` does not fail — the minus sign is not
part of the regex token, so the match "5s" contributes 5 and the total is
the positive double 5. -/
theorem parse_neg5s_returns_five :
    parseDurationToSeconds "-5s" = .ok (.fin 5 0) ∧ dblVal 5 0 = 5 := by
  refine ⟨by decide, ?_⟩
  norm_num [dblVal]

/-- C4 (amended): the parser fails with `InvalidDurationError` on "0s", on
the empty string and on every input with no ASCII digit at all; but "-5s"
parses to 5 seconds, because the sign is not part of the matched token. -/
theorem parse_rejects_zero_empty_nonnumeric :
    parseDurationToSeconds "0s" = .error (.invalidDuration invalidDurationMsg) ∧
    parseDurationToSeconds "" = .error (.invalidDuration invalidDurationMsg) ∧
    (∀ s : String, s.toList.all (fun c => !isAsciiDigit c) = true →
        parseDurationToSeconds s = .error (.invalidDuration invalidDurationMsg)) ∧
    parseDurationToSeconds "-5s" = .ok (.fin 5 0) ∧ dblVal 5 0 = 5 := by
  refine ⟨by decide, parse_nondigit_error "" (by decide), parse_nondigit_error,
    by decide, ?_⟩
  norm_num [dblVal]

set_option maxRecDepth 4000 in
/-- C5: every FINITE value the parser returns is strictly positive, but the
parser is not total on positives-only: at the 310-digit input
`overflowDurationStr` the token's value overflows to `Infinity`, and the
final guard (line 74) checks only `isNaN` and `<= 0`, both false of
`Infinity`, so `Infinity` is returned — refuting the claim's "finite"
half. -/
theorem parse_result_positive :
    (∀ (s : String) (m e : Int), parseDurationToSeconds s = .ok (.fin m e) →
        0 < dblVal m e) ∧
    parseDurationToSeconds overflowDurationStr = .ok (.inf false) := by
  refine ⟨fun s m e h => dblVal_pos m e (parse_fin_pos s m e h), ?_⟩
  decide

/-- Witness for the positivity half of C5 at the input "45". -/
theorem parse_result_positive_witness : 0 < dblVal 45 0 :=
  parse_result_positive.1 "45" 45 0 (by decide)

/-- C6 counterexample: with an empty key AND an unparseable duration, the
surfaced failure is the duration error, not the missing-credential error —
duration parsing precedes the credential check. -/
theorem emptyKey_duration_error_first :
    generatePromptFromRequest stubGateway "a cat explores a city" "" "" =
      (.error (genFailHead ++ invalidDurationMsg), 0) ∧
    genFailHead ++ invalidDurationMsg ≠ genFailHead ++ apiKeyMissingMsg :=
  ⟨rfl, by decide⟩

/-- C6 (amended): with an empty key the gateway is never called (count 0)
for every concept and duration; and whenever the duration parses, the
surfaced failure is the missing-credential error (wrapped by the catch
block). -/
theorem emptyKey_missing_credential :
    (∀ (gw : String → Except String String) (idea dur : String),
        (generatePromptFromRequest gw idea dur "").2 = 0) ∧
    (∀ (gw : String → Except String String) (idea dur : String) (d : JsNum),
        parseDurationToSeconds dur = .ok d →
        generatePromptFromRequest gw idea dur "" =
          (.error (genFailHead ++ apiKeyMissingMsg), 0)) :=
  ⟨generate_calls_zero_of_empty_key, generate_missing_key_of_parse_ok⟩

/-- C7 counterexample: for the input "xyz" the `InvalidDurationError`'s
message is the fixed format hint, which does not contain "xyz"; and the
caller receives it re-wrapped behind `Failed to generate scenes: `, not
verbatim. -/
theorem duration_error_not_verbatim :
    parseDurationToSeconds "xyz" = .error (.invalidDuration invalidDurationMsg) ∧
    strIncludes invalidDurationMsg "xyz" = false ∧
    generatePromptFromRequest stubGateway "idea" "xyz" "some-key" =
      (.error (genFailHead ++ invalidDurationMsg), 0) ∧
    genFailHead ++ invalidDurationMsg ≠ invalidDurationMsg :=
  ⟨rfl, by decide, rfl, by decide⟩

/-- C7 (amended): every parse failure carries the one fixed format-hint
message (never the offending input), and the plan operation surfaces it
wrapped behind `Failed to generate scenes: ` — the same message text as a
suffix, not verbatim. -/
theorem duration_error_fixed_message_wrapped :
    (∀ (s : String) (e : CoreError), parseDurationToSeconds s = .error e →
        e = .invalidDuration invalidDurationMsg) ∧
    (∀ (gw : String → Except String String) (idea dur key : String) (e : CoreError),
        parseDurationToSeconds dur = .error e →
        generatePromptFromRequest gw idea dur key =
          (.error (genFailHead ++ invalidDurationMsg), 0)) ∧
    strIncludes invalidDurationMsg "xyz" = false ∧
    genFailHead ++ invalidDurationMsg ≠ invalidDurationMsg :=
  ⟨parse_error_eq, generate_duration_error, by decide, by decide⟩

/-- C8 counterexample: "45x" is not entirely a bare number, yet the fallback
(`parseFloat`) parses the longest numeric prefix and the parser returns the
double 45. -/
theorem parse_45x_returns_45 :
    parseDurationToSeconds "45x" = .ok (.fin 45 0) ∧ dblVal 45 0 = 45 := by
  refine ⟨by decide, ?_⟩
  norm_num [dblVal]

set_option exponentiation.threshold 5000 in
set_option maxRecDepth 4000 in
/-- C8 (amended): with zero unit matches the fallback parses the longest
numeric prefix of the normalized string (`parseFloat` semantics): "45" and
"45x" both give 45.  The fallback value is adopted only when `parseFloat`'s
result is finite (the `isNaN`/`isFinite` check of line 69): a readable
prefix gives the guarded rounded number if it did not overflow, while an
input with no numeric prefix — or one whose prefix overflows to `Infinity`,
such as "1e999" — yields no fallback value and the parser fails. -/
theorem parse_fallback_longest_prefix :
    (parseDurationToSeconds "45" = .ok (.fin 45 0) ∧ dblVal 45 0 = 45) ∧
    parseDurationToSeconds "45x" = .ok (.fin 45 0) ∧
    (∀ (s : String) (r : FloatRep), scanMatches (normalizeDuration s) = [] →
        jsParseFloatRep (normalizeDuration s) = some r →
        parseDurationToSeconds s =
          if (FloatRep.toJsNum r).isFiniteB then
            (if (FloatRep.toJsNum r).le0 then .error (.invalidDuration invalidDurationMsg)
             else .ok (FloatRep.toJsNum r))
          else .error (.invalidDuration invalidDurationMsg)) ∧
    (∀ s : String, scanMatches (normalizeDuration s) = [] →
        jsParseFloatRep (normalizeDuration s) = none →
        parseDurationToSeconds s = .error (.invalidDuration invalidDurationMsg)) ∧
    parseDurationToSeconds "1e999" = .error (.invalidDuration invalidDurationMsg) := by
  refine ⟨⟨by decide, ?_⟩, by decide, parse_eq_of_float, parse_eq_of_nan, by decide⟩
  norm_num [dblVal]

/-- C9: on acceptance the validator returns the parsed object itself — the
value of `JSON.parse` on the trimmed text, unchanged, with every key kept
(also keys that do not match the scene pattern, like "extra"). -/
theorem validate_returns_parsed_unchanged :
    (∀ (raw : String) (v : Json), validateSceneResponse raw = .ok v →
        jsonParse (String.mk (jsTrim raw.toList)) = some v) ∧
    validateSceneResponse "\x7b\"scene_1\":\x7b\x7d,\"extra\":true\x7d" =
      .ok (Json.obj [("scene_1", Json.obj []), ("extra", Json.bool true)]) :=
  ⟨validate_ok_inv, rfl⟩

/-- C10: normalization replaces only the first comma (every comma after an
initial comma-free prefix stays), so in "1,5m 2,5s" the token "2,5s"
contributes 5 rather than 2.5 and the total is 95, not 92.5. -/
theorem first_comma_only_replaced :
    (∀ pre post : List Char, (∀ c ∈ pre, c ≠ ',') →
        replaceFirstComma (pre ++ ',' :: post) = pre ++ '.' :: post) ∧
    (parseDurationToSeconds "1,5m 2,5s" = .ok (.fin 95 0) ∧ dblVal 95 0 = 95) ∧
    (95 : ℚ) ≠ 90 + 5 / 2 := by
  refine ⟨replaceFirstComma_append, ⟨by decide, ?_⟩, by norm_num⟩
  norm_num [dblVal]

end VideoPrompt
